import Mathlib

/-!
Verification development for the Agenticai ticketing backend.

The Python sources are shallowly embedded as Lean definitions:
pure helpers become Lean functions, SQL queries become predicates over
an in-memory table, raised exceptions become `Except` errors, and the
MySQL `ORDER BY ... LIMIT` step becomes an explicit sort-and-take.
-/

namespace AgenticAI

/-! ## String helpers

Models of Python string primitives used by the backend:
`needle in hay` is contiguous-substring containment. -/

/-- Model of list prefix test (used to build Python substring containment). -/
def isPrefixChars : List Char → List Char → Bool
  | [], _ => true
  | _ :: _, [] => false
  | a :: as, b :: bs => a == b && isPrefixChars as bs

/-- Model of Python `needle in hay` on character lists: contiguous substring. -/
def containsSub : List Char → List Char → Bool
  | hay, needle =>
    isPrefixChars needle hay ||
      (match hay with
       | [] => false
       | _ :: t => containsSub t needle)

/-- Model of the Python expression `needle in hay` for strings. -/
def strContains (hay needle : String) : Bool :=
  containsSub hay.data needle.data

/-- Model of Python `str.lower()`: lower-case each character. -/
def strLower (s : String) : String :=
  String.mk (s.data.map Char.toLower)

/-! ## AI engine data model

From `src/backend/app/ai_engine.py` (class `AIEngine`) and
`src/backend/ai_engine.py` (standalone functions). A knowledge-base entry
is a JSON record with `keywords`, `answer` and `category`; the `keywords`
field may be a list of strings or a comma-separated string. -/

/-- Model of the dynamically typed `keywords` field of a knowledge-base entry. -/
inductive KeywordsField
  | ofList (l : List String)
  | ofStr (s : String)
deriving Repr, DecidableEq

/-- Model of one knowledge-base JSON record. -/
structure KBEntry where
  keywords : KeywordsField
  answer : String
  category : String
deriving Repr, DecidableEq

/-- Model of the keyword normalisation in `AIEngine.get_response`:
`if isinstance(keywords, str): keywords = [k.strip() for k in keywords.split(",")]`. -/
def normalizeKeywords : KeywordsField → List String
  | .ofList l => l
  | .ofStr s => (s.splitOn ",").map String.trim

/-- Model of the raw iteration `for keyword in entry["keywords"]` in
`retrieve_context` (src/backend/ai_engine.py), which does not normalise:
iterating a Python string yields its characters. -/
def iterKeywords : KeywordsField → List String
  | .ofList l => l
  | .ofStr s => s.data.map (fun c => String.mk [c])

/-- Model of the inner scoring loop of `AIEngine.get_response`
(src/backend/app/ai_engine.py lines 71-87): for each keyword that is a
substring of the lowercased query add `len(keyword) * 2`, and add 5 more
when the space-padded keyword occurs in the space-padded query. -/
def entryScore (e : KBEntry) (query_lower : String) : Nat :=
  (normalizeKeywords e.keywords).foldl
    (fun score keyword =>
      let keyword_lower := strLower keyword
      if strContains query_lower keyword_lower then
        let s1 := score + keyword.length * 2
        if strContains (" " ++ query_lower ++ " ") (" " ++ keyword_lower ++ " ") then
          s1 + 5
        else s1
      else score)
    0

/-- Modelled from the claim text for C3: the score is the sum over the
keywords of the entry of `len(keyword)*2` for each keyword that is a substring
of the lowercased query, plus a fixed bonus of 5 for each keyword that
matches as a whole word of the query. -/
def claimScore (keywords : List String) (query_lower : String) : Nat :=
  keywords.foldl
    (fun score keyword =>
      score
        + (if strContains query_lower (strLower keyword) then keyword.length * 2 else 0)
        + (if strContains (" " ++ query_lower ++ " ") (" " ++ strLower keyword ++ " ")
            then 5 else 0))
    0

/-- The accumulator loop of `AIEngine.get_response`: keep the first entry
whose score strictly exceeds the best score so far. -/
def bestEntryFold (ql : String) (acc : Option KBEntry × Nat) (kb : List KBEntry) :
    Option KBEntry × Nat :=
  kb.foldl
    (fun (acc : Option KBEntry × Nat) entry =>
      let score := entryScore entry ql
      if acc.2 < score then (some entry, score) else acc)
    acc

/-- Model of `AIEngine.get_response` (src/backend/app/ai_engine.py lines
61-93): fold over the knowledge base keeping the first strictly best
entry, returning it only when its score is positive. -/
def get_response (kb : List KBEntry) (query : String) : Option KBEntry :=
  let query_lower := strLower query
  let r := bestEntryFold query_lower (none, 0) kb
  if 0 < r.2 then r.1 else none

/-- Model of the scoring loop of `retrieve_context`
(src/backend/ai_engine.py lines 84-89): only `len(keyword) * 2` per
substring-matching keyword, with no whole-word bonus. -/
def ctxEntryScore (e : KBEntry) (q_lower : String) : Nat :=
  (iterKeywords e.keywords).foldl
    (fun score keyword =>
      if strContains q_lower (strLower keyword) then score + keyword.length * 2
      else score)
    0

/-- The accumulator loop of `retrieve_context`: keep the first answer whose
score strictly exceeds the best score so far. -/
def bestAnswerFold (ql : String) (acc : Option String × Nat) (kb : List KBEntry) :
    Option String × Nat :=
  kb.foldl
    (fun (acc : Option String × Nat) entry =>
      let score := ctxEntryScore entry ql
      if acc.2 < score then (some entry.answer, score) else acc)
    acc

/-- Model of `retrieve_context` (src/backend/ai_engine.py lines 73-95):
fold keeping the first strictly best answer; `best_match` starts as `None`
and is returned as-is (it stays `None` exactly when every score is 0). -/
def retrieve_context (kb : List KBEntry) (query : String) : Option String :=
  let q_lower := strLower query
  (bestAnswerFold q_lower (none, 0) kb).1

/-- Maximum `AIEngine.get_response` score over a knowledge base. -/
def maxEntryScore (kb : List KBEntry) (query_lower : String) : Nat :=
  kb.foldl (fun m e => max m (entryScore e query_lower)) 0

/-- Maximum `retrieve_context` score over a knowledge base. -/
def maxCtxScore (kb : List KBEntry) (q_lower : String) : Nat :=
  kb.foldl (fun m e => max m (ctxEntryScore e q_lower)) 0

/-! ## Escalation routing -/

/-- Model of `ESCALATION_KEYWORDS` (src/backend/ai_engine.py lines 26-32);
the Python value is a set, over which only order-insensitive `any` is used. -/
def ESCALATION_KEYWORDS : List String :=
  ["error", "crash", "bug", "fail", "broken", "down",
   "payment", "billing", "charge", "deploy", "server",
   "database", "critical", "urgent", "hack", "security",
   "not working", "doesn\x27t work", "can\x27t access", "unable to",
   "help me", "stuck", "problem", "issue", "trouble"]

/-- Model of `AIEngine.ESCALATION_KEYWORDS` (src/backend/app/ai_engine.py
lines 22-27). -/
def AIEngine_ESCALATION_KEYWORDS : List String :=
  ["error", "crash", "bug", "fail", "broken", "down",
   "payment", "billing", "charge", "deploy", "server",
   "database", "critical", "urgent", "hack", "security",
   "not working", "help", "emergency"]

/-- Model of `needs_human` (src/backend/ai_engine.py lines 155-168).
Confidence values are embedded as rationals; the source literal `0.6` is
the exact rational 3/5. -/
def needs_human (q : String) (conf : ℚ) : Bool :=
  let q_lower := strLower q
  let has_keywords := ESCALATION_KEYWORDS.any (fun k => strContains q_lower k)
  let is_low_confidence := decide (conf < 0.6)
  has_keywords || is_low_confidence

/-- Model of `AIEngine.needs_escalation` (src/backend/app/ai_engine.py
lines 95-110). -/
def needs_escalation (q : String) (confidence : ℚ) : Bool :=
  let query_lower := strLower q
  let has_escalation_keyword :=
    AIEngine_ESCALATION_KEYWORDS.any (fun k => strContains query_lower k)
  let is_low_confidence := decide (confidence < 0.6)
  has_escalation_keyword || is_low_confidence

/-! ## Ticket visibility engine (src/backend/ticket_visibility_engine.py)

A row returned by the SELECT of the engine: ticket columns joined with the
username of the client (the joined developer/assigner columns are never read
by the filtering logic of the engine and are omitted from the row model). -/

/-- Model of one row of the ticket query result. -/
structure Ticket where
  id : Nat
  user_id : Nat
  query : String
  reply : Option String
  status : String
  priority : String
  assigned_developer_id : Option Nat
  assignment_notes : Option String
  created_at : Nat
  client_name : String
deriving Repr, DecidableEq

/-- Model of MySQL `LIKE` pattern matching: `%` matches any sequence,
`_` any single character, all else literally. -/
def likeMatch (p s : List Char) : Bool :=
  match p, s with
  | [], [] => true
  | [], _ :: _ => false
  | '%' :: ps, s =>
    likeMatch ps s ||
      (match s with
       | [] => false
       | _ :: s' => likeMatch ('%' :: ps) s')
  | '_' :: _, [] => false
  | '_' :: ps, _ :: s' => likeMatch ps s'
  | _ :: _, [] => false
  | c :: ps, d :: s' => (c == d) && likeMatch ps s'
termination_by (p.length, s.length)

/-- Model of a Python value that is either a scalar string or a list of
strings (the `status` / `priority` filter values). -/
inductive StrOrList
  | str (s : String)
  | list (l : List String)
deriving Repr, DecidableEq

/-- Python truthiness for a `StrOrList` value: the empty string and the
empty list are falsy. -/
def strOrListTruthy : StrOrList → Bool
  | .str s => !(s == "")
  | .list l => !l.isEmpty

/-- Model of the `assigned_to` filter value: a scalar id or a list of
optional ids (`None` entries model Python `None`). -/
inductive AssignedTo
  | one (i : Nat)
  | many (l : List (Option Nat))
deriving Repr, DecidableEq

/-- Model of the `date_range` filter dict with optional `start`/`end` keys
(timestamps are modelled as naturals). -/
structure DateRange where
  start : Option Nat
  stop : Option Nat
deriving Repr, DecidableEq

/-- Model of the optional `filters` dict of `get_visible_tickets`; an
absent key is `none`. -/
structure Filters where
  status : Option StrOrList := none
  priority : Option StrOrList := none
  assigned_to : Option AssignedTo := none
  search_query : Option String := none
  date_range : Option DateRange := none
deriving Repr, DecidableEq

/-- Row-level semantics of the WHERE clause built by
`_build_filter_clause` (lines 237-291): each present and truthy filter
contributes one conjunct. -/
def filterPred (f : Filters) (t : Ticket) : Bool :=
  (match f.status with
   | some v =>
      if strOrListTruthy v then
        match v with
        | .list l => l.contains t.status
        | .str s => t.status == s
      else true
   | none => true)
  && (match f.priority with
      | some v =>
        if strOrListTruthy v then
          match v with
          | .list l => l.contains t.priority
          | .str s => t.priority == s
        else true
      | none => true)
  && (match f.assigned_to with
      | some (.many l) =>
        if l == [none] then t.assigned_developer_id == none
        else
          let valid_ids := l.filterMap (fun x => x)
          if valid_ids.isEmpty then true
          else match t.assigned_developer_id with
               | some d => valid_ids.contains d
               | none => false
      | some (.one i) => t.assigned_developer_id == some i
      | none => true)
  && (match f.search_query with
      | some s =>
        if s == "" then true
        else
          likeMatch ('%' :: s.data ++ ['%']) t.query.data
            || likeMatch ('%' :: s.data ++ ['%']) t.client_name.data
      | none => true)
  && (match f.date_range with
      | some dr =>
        (match dr.start with
         | some a => decide (a ≤ t.created_at)
         | none => true)
        && (match dr.stop with
            | some b => decide (t.created_at ≤ b)
            | none => true)
      | none => true)

/-- Semantics of the optional filters argument: an absent or empty dict
adds no conjunct. -/
def optFilterPred (filters : Option Filters) (t : Ticket) : Bool :=
  match filters with
  | some f => filterPred f t
  | none => true

/-- The roles present in `self.visibility_rules` (lines 21-38). -/
def visibilityRoles : List String := ["client", "developer", "project_manager", "admin"]

/-- Row-level semantics of the role-based WHERE clause built by
`_build_base_query` (lines 194-235). -/
def buildBaseQueryPred (user_id : Nat) (user_role : String) (t : Ticket) : Bool :=
  if user_role == "client" then t.user_id == user_id
  else if user_role == "developer" then t.status == "OPEN" || t.status == "IN_PROGRESS"
  else if user_role == "project_manager" then
    t.status == "OPEN" || t.status == "IN_PROGRESS"
  else if user_role == "admin" then true
  else false

/-- Insertion step for sorting rows by `created_at` descending. -/
def insertByCreatedDesc (x : Ticket) : List Ticket → List Ticket
  | [] => [x]
  | y :: ys =>
    if y.created_at ≤ x.created_at then x :: y :: ys
    else y :: insertByCreatedDesc x ys

/-- Sorting by `created_at` descending, modelling `ORDER BY t.created_at DESC`. -/
def sortByCreatedDesc : List Ticket → List Ticket
  | [] => []
  | x :: xs => insertByCreatedDesc x (sortByCreatedDesc xs)

/-- Semantics of executing the built query (line 84):
`... ORDER BY t.created_at DESC LIMIT 1000`. -/
def executeTicketQuery (table : List Ticket) (pred : Ticket → Bool) : List Ticket :=
  (sortByCreatedDesc (table.filter pred)).take 1000

/-- Model of the per-ticket rewriting inside `_apply_role_based_filtering`
(lines 304-308): replace truthy assignment notes containing the marker
`INTERNAL:`. -/
def hideInternalNotes (t : Ticket) : Ticket :=
  match t.assignment_notes with
  | some notes =>
    if !(notes == "") && strContains notes "INTERNAL:" then
      { t with assignment_notes := some "[Internal notes hidden]" }
    else t
  | none => t

/-- Model of `_apply_role_based_filtering` (lines 293-314). -/
def apply_role_based_filtering (tickets : List Ticket) (user_role : String)
    (user_id : Nat) : List Ticket :=
  if user_role == "client" then
    tickets.filter (fun t => t.user_id == user_id)
  else if user_role == "developer" || user_role == "project_manager"
      || user_role == "admin" then
    if !(user_role == "admin") then tickets.map hideInternalNotes
    else tickets
  else []

/-- Model of `get_visible_tickets` (lines 48-113). The tickets table and a
database-failure flag stand for the pooled connection; every raised error
(invalid input `ValueError`, database exception) is caught by the
surrounding `try/except`, which returns the empty list. -/
def get_visible_tickets (table : List Ticket) (dbFail : Bool)
    (user_id : Nat) (user_role : String) (filters : Option Filters) : List Ticket :=
  if user_id == 0 || user_role == "" then []
  else if !(visibilityRoles.contains user_role) then []
  else if dbFail then []
  else
    let tickets := executeTicketQuery table
      (fun t => buildBaseQueryPred user_id user_role t && optFilterPred filters t)
    apply_role_based_filtering tickets user_role user_id

/-- Model of `_check_role_based_access` (lines 316-349). The Python test
`not ticket['assigned_developer_id']` is falsy for both NULL and 0. -/
def check_role_based_access (ticket : Ticket) (user_id : Nat) (user_role : String)
    (action : String) : Bool :=
  if user_role == "client" then ticket.user_id == user_id
  else if user_role == "developer" then
    if action == "view" then
      ticket.status == "OPEN" || ticket.status == "IN_PROGRESS"
    else if action == "assign" then
      ticket.status == "OPEN"
        && (match ticket.assigned_developer_id with
            | none => true
            | some d => d == 0)
    else if action == "complete" || action == "update"
        || action == "pass" || action == "cancel" then
      ticket.assigned_developer_id == some user_id
    else false
  else if user_role == "project_manager" then
    if action == "view" then
      ticket.status == "OPEN" || ticket.status == "IN_PROGRESS"
    else if action == "assign" then ticket.status == "OPEN"
    else if action == "complete" || action == "update" then false
    else false
  else if user_role == "admin" then true
  else false

/-- Model of `check_ticket_access` (lines 115-162): validation, the single
ticket fetch (`fetchone` returns the first matching row), and the wrapping
`try/except` that turns every failure into `False`. -/
def check_ticket_access (table : List Ticket) (dbFail : Bool)
    (user_id ticket_id : Nat) (user_role : String) (action : String) : Bool :=
  if user_id == 0 || ticket_id == 0 || user_role == "" then false
  else if !(visibilityRoles.contains user_role) then false
  else if dbFail then false
  else
    match table.find? (fun t => t.id == ticket_id) with
    | none => false
    | some ticket => check_role_based_access ticket user_id user_role action

/-! ## Concrete tickets used in witnesses -/

/-- Concrete ticket owned by user 7 with internal assignment notes. -/
def ticketEx1 : Ticket :=
  ⟨1, 7, "printer broken", none, "OPEN", "HIGH", some 3,
    some "INTERNAL: escalate quietly", 100, "carol"⟩

/-- Concrete ticket owned by user 8 with plain assignment notes. -/
def ticketEx2 : Ticket :=
  ⟨2, 8, "vpn down", none, "IN_PROGRESS", "MEDIUM", some 3,
    some "restarted tunnel", 200, "dave"⟩

/-- Concrete closed ticket owned by user 7. -/
def ticketEx3 : Ticket :=
  ⟨3, 7, "password reset", some "done", "CLOSED", "LOW", none, none, 300, "carol"⟩

/-- Concrete three-row tickets table. -/
def ticketTableEx : List Ticket := [ticketEx1, ticketEx2, ticketEx3]

/-! ## Concrete knowledge base used to separate the two scoring rules -/

/-- Concrete entry whose only keyword `"et ab"` (length 5) is a substring
but not a whole word of the query `"get abc"`. -/
def kbEntryA : KBEntry := ⟨.ofList ["et ab"], "ansA", "general"⟩

/-- Concrete entry whose only keyword `"abc"` (length 3) is a whole word of
the query `"get abc"`. -/
def kbEntryB : KBEntry := ⟨.ofList ["abc"], "ansB", "general"⟩

/-- Concrete two-entry knowledge base. -/
def kbEx : List KBEntry := [kbEntryA, kbEntryB]

/-! ## Authentication (src/backend/database.py and src/backend/main.py) -/

/-- Model of one row of the `users` table; `email` is nullable. -/
structure UserRow where
  id : Nat
  username : String
  password : String
  email : Option String
  role : String
deriving Repr, DecidableEq

/-- Model of `authenticate_user` (src/backend/database.py lines 87-96):
`SELECT id, role FROM users WHERE username=%s AND password=%s` with
`fetchone`, i.e. the first row whose stored username and password equal
the supplied values verbatim (no hashing). The model returns the matching
row; the endpoint reads its `id` and `role`. -/
def authenticate_user (users : List UserRow) (username password : String) :
    Option UserRow :=
  users.find? (fun u => u.username == username && u.password == password)

/-- Model of the JWT payload built in `login`:
`{"id": ..., "role": ..., "iat": ...}`. -/
structure JwtPayload where
  id : Nat
  role : String
  iat : Nat
deriving Repr, DecidableEq

/-- Model of a signed JWT: the payload together with the signing key and
algorithm (`jwt.encode` is a library call; a token is modelled as the data
it binds together). -/
structure JwtToken where
  payload : JwtPayload
  key : String
  algorithm : String
deriving Repr, DecidableEq

/-- Model of `jwt.encode(payload, key, algorithm)`. -/
def jwtEncode (payload : JwtPayload) (key algorithm : String) : JwtToken :=
  ⟨payload, key, algorithm⟩

/-- Default of `os.getenv("JWT_SECRET", "supersecretkey")` (main.py line 60). -/
def JWT_SECRET : String := "supersecretkey"

/-- The constant `JWT_ALGO = "HS256"` (main.py line 61). -/
def JWT_ALGO : String := "HS256"

/-- Model of the JSON body returned by a successful `/login`. -/
structure LoginResponse where
  token : JwtToken
  role : String
  username : String
deriving Repr, DecidableEq

/-- Model of the `/login` endpoint (src/backend/main.py lines 158-216).
A database error during authentication raises HTTP 503; no matching row
raises HTTP 401; otherwise a signed token carrying the id and role of the user
is returned. The `AuditService` calls in the source are wrapped in bare
`try/except: pass` (and `AuditService` is not even imported), so they
cannot affect the result and are not modelled. -/
def login (users : List UserRow) (dbFail : Bool) (username password : String)
    (now : Nat) : Except Nat LoginResponse :=
  if dbFail then Except.error 503
  else
    match authenticate_user users username password with
    | none => Except.error 401
    | some user =>
      Except.ok ⟨jwtEncode ⟨user.id, user.role, now⟩ JWT_SECRET JWT_ALGO,
        user.role, username⟩

/-! ## Ticket lifecycle state (src/backend/main.py)

The mutating endpoints are modelled as functions from a database state to
`Except` of an HTTP error status or the updated state. Timestamps
(`NOW()`) are passed in as a parameter. -/

/-- Model of one row of the `tickets` table as used by main.py. -/
structure TicketRow where
  id : Nat
  user_id : Nat
  query : String
  reply : Option String
  status : String
  priority : String
  created_at : Nat
  updated_at : Nat
deriving Repr, DecidableEq

/-- Model of one row of the `ticket_assignments` table; `notes` is
nullable (the self-assign INSERT omits it). -/
structure AssignmentRow where
  id : Nat
  ticket_id : Nat
  developer_id : Nat
  assigned_by : Nat
  assigned_at : Nat
  is_active : Bool
  notes : Option String
deriving Repr, DecidableEq

/-- Model of one row of the `notifications` table (either user-targeted or
role-targeted). -/
structure NotificationRow where
  user_id : Option Nat
  role : Option String
  message : String
  ntype : String
  created_at : Nat
deriving Repr, DecidableEq

/-- Model of the backend database state touched by the assignment and
lifecycle endpoints; the `next...Id` fields model AUTO_INCREMENT. -/
structure BackendDB where
  users : List UserRow
  tickets : List TicketRow
  assignments : List AssignmentRow
  notifications : List NotificationRow
  nextAssignmentId : Nat
  nextTicketId : Nat
deriving Repr, DecidableEq

/-- Number of active assignment rows for a ticket. -/
def activeAssignmentCount (db : BackendDB) (tid : Nat) : Nat :=
  (db.assignments.filter (fun a => a.ticket_id == tid && a.is_active)).length

/-- Status of a ticket: the status of the first `tickets` row with the
given id (`fetchone` on `WHERE id = %s`). -/
def ticketStatus (db : BackendDB) (tid : Nat) : Option String :=
  (db.tickets.find? (fun t => t.id == tid)).map (fun t => t.status)

/-- Model of `assign_ticket_as_admin` (src/backend/main.py lines 625-662):
validate developer id (falsy `developer_id` is 0 or absent), check ticket
and developer exist, deactivate every assignment of the ticket, insert the
new active assignment, and set the ticket status to IN_PROGRESS. -/
def assign_ticket_as_admin (db : BackendDB) (ticket_id developer_id : Nat)
    (notes : String) (actor_id now : Nat) : Except Nat BackendDB :=
  if developer_id == 0 then Except.error 400
  else
    match db.tickets.find? (fun t => t.id == ticket_id) with
    | none => Except.error 404
    | some _ =>
      match db.users.find? (fun u => u.id == developer_id && u.role == "developer") with
      | none => Except.error 404
      | some _ =>
        Except.ok { db with
          assignments :=
            (db.assignments.map (fun a =>
              if a.ticket_id == ticket_id then { a with is_active := false } else a))
            ++ [⟨db.nextAssignmentId, ticket_id, developer_id, actor_id, now,
                true, some notes⟩],
          tickets := db.tickets.map (fun t =>
            if t.id == ticket_id then { t with status := "IN_PROGRESS" } else t),
          nextAssignmentId := db.nextAssignmentId + 1 }

/-- Model of `assign_ticket_as_pm` (src/backend/main.py lines 664-701),
whose body is a verbatim duplicate of the admin endpoint. -/
def assign_ticket_as_pm (db : BackendDB) (ticket_id developer_id : Nat)
    (notes : String) (actor_id now : Nat) : Except Nat BackendDB :=
  if developer_id == 0 then Except.error 400
  else
    match db.tickets.find? (fun t => t.id == ticket_id) with
    | none => Except.error 404
    | some _ =>
      match db.users.find? (fun u => u.id == developer_id && u.role == "developer") with
      | none => Except.error 404
      | some _ =>
        Except.ok { db with
          assignments :=
            (db.assignments.map (fun a =>
              if a.ticket_id == ticket_id then { a with is_active := false } else a))
            ++ [⟨db.nextAssignmentId, ticket_id, developer_id, actor_id, now,
                true, some notes⟩],
          tickets := db.tickets.map (fun t =>
            if t.id == ticket_id then { t with status := "IN_PROGRESS" } else t),
          nextAssignmentId := db.nextAssignmentId + 1 }

/-- Model of `self_assign_ticket` (src/backend/main.py lines 968-995): the
LEFT JOIN check passes iff the ticket exists, is OPEN, and has no active
assignment; then insert the assignment (no notes column) and set the
status to IN_PROGRESS. -/
def self_assign_ticket (db : BackendDB) (ticket_id dev_id now : Nat) :
    Except Nat BackendDB :=
  if !(db.tickets.any (fun t =>
        t.id == ticket_id && t.status == "OPEN"
          && !(db.assignments.any (fun a => a.ticket_id == t.id && a.is_active)))) then
    Except.error 404
  else
    Except.ok { db with
      assignments := db.assignments
        ++ [⟨db.nextAssignmentId, ticket_id, dev_id, dev_id, now, true, none⟩],
      tickets := db.tickets.map (fun t =>
        if t.id == ticket_id then { t with status := "IN_PROGRESS" } else t),
      nextAssignmentId := db.nextAssignmentId + 1 }

/-- Model of `complete_ticket` (src/backend/main.py lines 997-1021):
requires an active assignment of the ticket to this developer, then sets
status CLOSED and stores the completion notes as the reply. -/
def complete_ticket (db : BackendDB) (ticket_id dev_id : Nat)
    (completion_notes : String) (now : Nat) : Except Nat BackendDB :=
  if !(db.assignments.any (fun a =>
        a.ticket_id == ticket_id && a.developer_id == dev_id && a.is_active)) then
    Except.error 403
  else
    Except.ok { db with
      tickets := db.tickets.map (fun t =>
        if t.id == ticket_id then
          { t with
            status := "CLOSED",
            reply := some completion_notes,
            updated_at := now }
        else t) }

/-- The committed updates of the pass endpoint (main.py lines 1041-1056):
deactivate the matching assignments with a note, set the ticket status
back to OPEN, and insert the two role notifications. -/
def passUpdatedState (db : BackendDB) (ticket_id dev_id : Nat) (reason : String)
    (now : Nat) : BackendDB :=
  { db with
    assignments := db.assignments.map (fun a =>
      if a.ticket_id == ticket_id && a.developer_id == dev_id && a.is_active then
        { a with
          is_active := false,
          notes := some ("Passed by developer: " ++ reason) }
      else a),
    tickets := db.tickets.map (fun t =>
      if t.id == ticket_id then { t with status := "OPEN" } else t),
    notifications := db.notifications
      ++ [⟨none, some "admin",
            "Ticket " ++ toString ticket_id ++ " passed back by developer: " ++ reason,
            "ticket_passed", now⟩,
          ⟨none, some "project_manager",
            "Ticket " ++ toString ticket_id ++ " passed back by developer: " ++ reason,
            "ticket_passed", now⟩] }

/-- Model of `pass_ticket` (src/backend/main.py lines 1023-1083). The
check joins `ticket_assignments` with `users`, so it requires an active
assignment to this developer and the user row of that developer. On a
passing check the assignment is deactivated with a note, the ticket
status is set back to OPEN for reassignment, and in-app notifications are
inserted for admin and project_manager; each statement autocommits
(database.py `autocommit: True`). The cursor is a dictionary cursor
(database.py line 22), so rows are dicts and the comprehension
`admin_emails = [row[0] for row in cur.fetchall()]` at main.py line 1063
raises an uncaught KeyError as soon as the email SELECT returns any row:
whenever some admin or project manager has a non-empty email the endpoint
answers HTTP 500 with the updates already committed, and the guarded
email send is never reached, so `emailOutcome` is dead on every path. An
error result carries the HTTP status together with the state as committed
when the exception escaped. -/
def pass_ticket (db : BackendDB) (ticket_id dev_id : Nat) (reason : String)
    (now : Nat) (emailOutcome : Except String Unit) :
    Except (Nat × BackendDB) BackendDB :=
  if !(db.assignments.any (fun a =>
          a.ticket_id == ticket_id && a.developer_id == dev_id && a.is_active)
        && db.users.any (fun u => u.id == dev_id)) then
    Except.error (403, db)
  else if (db.users.filter (fun u =>
        (u.role == "admin" || u.role == "project_manager")
          && (match u.email with
              | some e => !(e == "")
              | none => false))).isEmpty then
    Except.ok (passUpdatedState db ticket_id dev_id reason now)
  else
    Except.error (500, passUpdatedState db ticket_id dev_id reason now)

/-- Model of `cancel_ticket` (src/backend/main.py lines 1085-1145). The
check joins the assignment with the ticket and both user rows. On a
passing check the ticket is CLOSED with the cancellation reason as reply
(main.py lines 1107-1111, autocommitted), but the very next statement
builds its INSERT parameters as `ticket_info[1]` (line 1117), an integer
index into a dictionary-cursor row, raising an uncaught KeyError: the
endpoint always answers HTTP 500 after a passing check, inserts no
notification, and never reaches the email send, so `emailOutcome` is dead
on every path. An error result carries the HTTP status together with the
state as committed when the exception escaped. -/
def cancel_ticket (db : BackendDB) (ticket_id dev_id : Nat) (reason : String)
    (now : Nat) (emailOutcome : Except String Unit) :
    Except (Nat × BackendDB) BackendDB :=
  match db.assignments.find? (fun a =>
      a.ticket_id == ticket_id && a.developer_id == dev_id && a.is_active) with
  | none => Except.error (403, db)
  | some _ =>
    match db.tickets.find? (fun t => t.id == ticket_id) with
    | none => Except.error (403, db)
    | some t =>
      match db.users.find? (fun c => c.id == t.user_id),
          db.users.find? (fun d => d.id == dev_id) with
      | some _, some _ =>
        Except.error (500, { db with
          tickets := db.tickets.map (fun tk =>
            if tk.id == ticket_id then
              { tk with
                status := "CLOSED",
                reply := some ("Ticket canceled by developer: " ++ reason),
                updated_at := now }
            else tk) })
      | _, _ => Except.error (403, db)

/-- Model of `update_ticket_status` (src/backend/main.py lines 1147-1188):
requires an active assignment to this developer; the new status must be
IN_PROGRESS or CLOSED; closing requires non-blank notes and stores them as
the reply. -/
def update_ticket_status (db : BackendDB) (ticket_id dev_id : Nat)
    (status notes : String) (now : Nat) : Except Nat BackendDB :=
  if !(db.assignments.any (fun a =>
        a.ticket_id == ticket_id && a.developer_id == dev_id && a.is_active)) then
    Except.error 403
  else if !(status == "IN_PROGRESS" || status == "CLOSED") then
    Except.error 400
  else if status == "CLOSED" then
    if notes.trim == "" then Except.error 400
    else
      Except.ok { db with
        tickets := db.tickets.map (fun t =>
          if t.id == ticket_id then
            { t with status := status, reply := some notes, updated_at := now }
          else t) }
  else
    Except.ok { db with
      tickets := db.tickets.map (fun t =>
        if t.id == ticket_id then { t with status := status, updated_at := now }
        else t) }

/-- Model of `create_client_ticket` (src/backend/main.py lines 1232-1249):
a non-empty query inserts a new ticket with status OPEN and returns its
id (`cur.lastrowid`). -/
def create_client_ticket (db : BackendDB) (uid : Nat) (q priority : String)
    (now : Nat) : Except Nat (BackendDB × Nat) :=
  if q == "" then Except.error 400
  else
    Except.ok ({ db with
      tickets := db.tickets
        ++ [⟨db.nextTicketId, uid, q, none, "OPEN", priority, now, now⟩],
      nextTicketId := db.nextTicketId + 1 }, db.nextTicketId)

/-! ## Telegram notifier (src/backend/notifier.py) -/

/-- Model of the module-level Telegram configuration (nullable env vars). -/
structure TelegramConfig where
  bot_token : Option String
  chat_id : Option String
deriving Repr, DecidableEq

/-- Outcome of `requests.post`: either a response or a raised
`requests.RequestException` (the only exception the requests API raises). -/
inductive HttpOutcome
  | response (status : Nat)
  | requestError (msg : String)
deriving Repr, DecidableEq

/-- Model of `notify_admin` (src/backend/notifier.py lines 19-38): return
silently when configuration is falsy (None or empty), and swallow any
`requests.RequestException`; the `Except` codomain records that the
function could propagate an exception but never does. -/
def notify_admin (cfg : TelegramConfig) (message : String) (http : HttpOutcome) :
    Except String Unit :=
  if !(match cfg.bot_token with | some t => !(t == "") | none => false)
      || !(match cfg.chat_id with | some c => !(c == "") | none => false) then
    Except.ok ()
  else
    match http with
    | .response _ => Except.ok ()
    | .requestError _ => Except.ok ()

/-! ## Concrete backend state used in witnesses and counterexamples -/

/-- Concrete database: four users (the admin and the project manager have
no stored email, so the pass endpoint reaches its success return), one
IN_PROGRESS ticket actively assigned to developer 2, and one unassigned
OPEN ticket. -/
def dbEx : BackendDB :=
  { users := [⟨1, "alice", "pw1", none, "admin"⟩,
      ⟨2, "dana", "pw2", some "dana@x", "developer"⟩,
      ⟨3, "pat", "pw3", none, "project_manager"⟩,
      ⟨4, "carol", "pw4", some "carol@x", "client"⟩],
    tickets := [⟨1, 4, "broken vpn", none, "IN_PROGRESS", "HIGH", 10, 10⟩,
      ⟨2, 4, "slow wifi", none, "OPEN", "LOW", 20, 20⟩],
    assignments := [⟨1, 1, 2, 1, 11, true, some "take it"⟩],
    notifications := [],
    nextAssignmentId := 2,
    nextTicketId := 3 }

/-- Concrete database identical to `dbEx` except that the admin and the
project manager have non-empty stored emails: the configuration under
which the pass endpoint hits the `row[0]` KeyError, and the failing input
for the cancel endpoint. -/
def dbEx8 : BackendDB :=
  { users := [⟨1, "alice", "pw1", some "alice@x", "admin"⟩,
      ⟨2, "dana", "pw2", some "dana@x", "developer"⟩,
      ⟨3, "pat", "pw3", some "pat@x", "project_manager"⟩,
      ⟨4, "carol", "pw4", some "carol@x", "client"⟩],
    tickets := [⟨1, 4, "broken vpn", none, "IN_PROGRESS", "HIGH", 10, 10⟩,
      ⟨2, 4, "slow wifi", none, "OPEN", "LOW", 20, 20⟩],
    assignments := [⟨1, 1, 2, 1, 11, true, some "take it"⟩],
    notifications := [],
    nextAssignmentId := 2,
    nextTicketId := 3 }

/-- Committed state carried by the HTTP 500 outcome of cancelling ticket 1
in `dbEx8`, extracted from the operation itself. -/
def dbEx8AfterCancelCrash : BackendDB :=
  match cancel_ticket dbEx8 1 2 "looks spam" 12 (Except.ok ()) with
  | Except.error (_, d) => d
  | Except.ok d => d

/-- Committed state carried by the HTTP 500 outcome of passing ticket 1 in
`dbEx8`, extracted from the operation itself. -/
def dbEx8AfterPassCrash : BackendDB :=
  match pass_ticket dbEx8 1 2 "too busy" 12 (Except.ok ()) with
  | Except.error (_, d) => d
  | Except.ok d => d

/-- State after developer 2 passes ticket 1 back, extracted from the
operation itself. -/
def dbExAfterPass : BackendDB :=
  match pass_ticket dbEx 1 2 "too busy" 12 (Except.ok ()) with
  | Except.ok d => d
  | Except.error _ => dbEx

/-- State after the admin assigns ticket 2 to developer 2, extracted from
the operation itself. -/
def dbExAfterAdminAssign : BackendDB :=
  match assign_ticket_as_admin dbEx 2 2 "please fix" 1 13 with
  | Except.ok d => d
  | Except.error _ => dbEx

/-- State after developer 2 self-assigns ticket 2, extracted from the
operation itself. -/
def dbExAfterSelfAssign : BackendDB :=
  match self_assign_ticket dbEx 2 2 14 with
  | Except.ok d => d
  | Except.error _ => dbEx

/-! # Theorems -/

theorem isPrefixChars_iff (n h : List Char) :
    isPrefixChars n h = true ↔ ∃ t, h = n ++ t := by
  induction n generalizing h with
  | nil =>
    simp [isPrefixChars]
  | cons a as ih =>
    cases h with
    | nil => simp [isPrefixChars]
    | cons b bs =>
      simp only [isPrefixChars, Bool.and_eq_true, beq_iff_eq, ih]
      constructor
      · rintro ⟨rfl, t, rfl⟩
        exact ⟨t, rfl⟩
      · rintro ⟨t, ht⟩
        injection ht with h1 h2
        exact ⟨h1.symm, t, h2⟩

theorem containsSub_iff (h n : List Char) :
    containsSub h n = true ↔ ∃ s t, h = s ++ n ++ t := by
  induction h with
  | nil =>
    simp only [containsSub, isPrefixChars_iff, Bool.or_false]
    constructor
    · rintro ⟨t, ht⟩
      exact ⟨[], t, by simpa using ht⟩
    · rintro ⟨s, t, hst⟩
      rcases List.append_eq_nil.mp (List.append_eq_nil.mp hst.symm).1 with ⟨rfl, rfl⟩
      exact ⟨t, hst⟩
  | cons c cs ih =>
    simp only [containsSub, Bool.or_eq_true, isPrefixChars_iff, ih]
    constructor
    · rintro (⟨t, ht⟩ | ⟨s, t, hst⟩)
      · exact ⟨[], t, by simpa using ht⟩
      · exact ⟨c :: s, t, by simp [hst]⟩
    · rintro ⟨s, t, hst⟩
      cases s with
      | nil => exact Or.inl ⟨t, by simpa using hst⟩
      | cons x xs =>
        injection hst with h1 h2
        exact Or.inr ⟨xs, t, h2⟩

theorem strContains_iff (hay needle : String) :
    strContains hay needle = true ↔ ∃ s t, hay.data = s ++ needle.data ++ t :=
  containsSub_iff hay.data needle.data

theorem data_append (a b : String) : (a ++ b).data = a.data ++ b.data := by
  cases a; cases b; rfl

/-- Auxiliary: a word bracketed by spaces that occurs starting right after the
leading space of the padded haystack is a prefix of the unpadded haystack. -/
theorem word_prefix_of_eq (kw : List Char) :
    ∀ (q t : List Char), kw ++ ' ' :: t = q ++ [' '] → ∃ u, q = kw ++ u := by
  induction kw with
  | nil =>
    intro q t _
    exact ⟨q, rfl⟩
  | cons c kw' ih =>
    intro q t heq
    cases q with
    | nil =>
      simp only [List.nil_append] at heq
      injection heq with h1 h2
      exact absurd h2 (by simp)
    | cons d q' =>
      injection heq with h1 h2
      rcases ih q' t h2 with ⟨u, hu⟩
      exact ⟨u, by simp [h1, hu]⟩

/-- Auxiliary: an occurrence of a space-padded word inside `q ++ [' ']` yields
an occurrence of the bare word inside `q`. -/
theorem word_infix_of_eq (s : List Char) :
    ∀ (q t kw : List Char), s ++ (' ' :: kw ++ [' ']) ++ t = q ++ [' '] →
      ∃ a b, q = a ++ kw ++ b := by
  induction s with
  | nil =>
    intro q t kw heq
    cases q with
    | nil =>
      simp only [List.nil_append] at heq
      injection heq with h1 h2
      exact absurd h2 (by simp)
    | cons d q' =>
      simp only [List.nil_append] at heq
      injection heq with h1 h2
      have h2' : (kw ++ [' ']) ++ t = q' ++ [' '] := h2
      rcases word_prefix_of_eq kw q' t (by simpa [List.append_assoc] using h2') with ⟨u, hu⟩
      exact ⟨[' '], u, by simp [hu, ← h1]⟩
  | cons x s' ih =>
    intro q t kw heq
    cases q with
    | nil =>
      simp only [List.nil_append] at heq
      injection heq with h1 h2
      exact absurd h2 (by simp)
    | cons d q' =>
      injection heq with h1 h2
      rcases ih q' t kw h2 with ⟨a, b, hab⟩
      exact ⟨d :: a, b, by simp [hab]⟩

/-- A whole-word (space-padded) substring match implies a plain substring
match: this connects the two scoring clauses of the AI engine. -/
theorem wholeword_implies_substring (q kw : String) :
    strContains (" " ++ q ++ " ") (" " ++ kw ++ " ") = true →
    strContains q kw = true := by
  intro h
  rw [strContains_iff] at h ⊢
  rcases h with ⟨s, t, hst⟩
  have hst' : s ++ ((' ' :: (kw.data ++ [' '])) ++ t) = ' ' :: (q.data ++ [' ']) := by
    have h0 := hst.symm
    rw [data_append, data_append, data_append, data_append] at h0
    have hsp : (" " : String).data = [' '] := rfl
    rw [hsp] at h0
    simpa [List.append_assoc] using h0
  cases s with
  | nil =>
    simp only [List.nil_append] at hst'
    injection hst' with h1 h2
    have h2' : (kw.data ++ [' ']) ++ t = q.data ++ [' '] := h2
    rcases word_prefix_of_eq kw.data q.data t
        (by simpa [List.append_assoc] using h2') with ⟨u, hu⟩
    exact ⟨[], u, by simpa using hu⟩
  | cons c s' =>
    injection hst' with h1 h2
    have h2' : s' ++ (' ' :: kw.data ++ [' ']) ++ t = q.data ++ [' '] := by
      have h2'' : s' ++ ((' ' :: (kw.data ++ [' '])) ++ t) = q.data ++ [' '] := h2
      simpa [List.append_assoc] using h2''
    rcases word_infix_of_eq s' q.data t kw.data h2' with ⟨a, b, hab⟩
    exact ⟨a, b, hab⟩

/-! ## Folding lemmas for the best-match loops -/

theorem foldl_fun_congr {α : Type} (f g : Nat → α → Nat)
    (h : ∀ b a, f b a = g b a) :
    ∀ (l : List α) (b : Nat), l.foldl f b = l.foldl g b := by
  intro l
  induction l with
  | nil => intro b; rfl
  | cons x xs ih =>
    intro b
    simp only [List.foldl_cons, h]
    exact ih _

/-- The per-entry score computed by the translated `AIEngine.get_response`
loop coincides with the scoring formula as the spec states it. -/
theorem entryScore_eq_claimScore (e : KBEntry) (ql : String) :
    entryScore e ql = claimScore (normalizeKeywords e.keywords) ql := by
  unfold entryScore claimScore
  apply foldl_fun_congr
  intro b kw
  by_cases hsub : strContains ql (strLower kw) = true
  · by_cases hww :
        strContains (" " ++ ql ++ " ") (" " ++ strLower kw ++ " ") = true
    · simp [hsub, hww, Nat.add_assoc]
    · simp [hsub, hww]
  · have hww :
        ¬ strContains (" " ++ ql ++ " ") (" " ++ strLower kw ++ " ") = true := by
      intro hx
      exact hsub (wholeword_implies_substring ql (strLower kw) hx)
    simp [hsub, hww]

theorem bestEntryFold_cons (ql : String) (e : KBEntry) (kb : List KBEntry)
    (acc : Option KBEntry × Nat) :
    bestEntryFold ql acc (e :: kb)
      = bestEntryFold ql
          (if acc.2 < entryScore e ql then (some e, entryScore e ql) else acc) kb := rfl

theorem bestEntryFold_snd (ql : String) (kb : List KBEntry) :
    ∀ acc : Option KBEntry × Nat,
      (bestEntryFold ql acc kb).2
        = kb.foldl (fun m e => max m (entryScore e ql)) acc.2 := by
  induction kb with
  | nil => intro acc; rfl
  | cons e kb ih =>
    intro acc
    rw [bestEntryFold_cons, List.foldl_cons, ih]
    congr 1
    by_cases hc : acc.2 < entryScore e ql
    · simp only [hc, if_true]
      exact (Nat.max_eq_right (Nat.le_of_lt hc)).symm
    · simp only [hc, if_false]
      exact (Nat.max_eq_left (Nat.le_of_not_lt hc)).symm

theorem bestEntryFold_fst (ql : String) (kb : List KBEntry) :
    ∀ acc : Option KBEntry × Nat,
      bestEntryFold ql acc kb = acc
      ∨ ∃ e, e ∈ kb
          ∧ bestEntryFold ql acc kb = (some e, entryScore e ql)
          ∧ 0 < entryScore e ql := by
  induction kb with
  | nil => intro acc; exact Or.inl rfl
  | cons e kb ih =>
    intro acc
    rw [bestEntryFold_cons]
    by_cases hc : acc.2 < entryScore e ql
    · simp only [hc, if_true]
      rcases ih (some e, entryScore e ql) with h | ⟨e', he', h1, h2⟩
      · exact Or.inr ⟨e, List.mem_cons_self e kb, h,
          Nat.lt_of_le_of_lt (Nat.zero_le _) hc⟩
      · exact Or.inr ⟨e', List.mem_cons_of_mem e he', h1, h2⟩
    · simp only [hc, if_false]
      rcases ih acc with h | ⟨e', he', h1, h2⟩
      · exact Or.inl h
      · exact Or.inr ⟨e', List.mem_cons_of_mem e he', h1, h2⟩

theorem bestAnswerFold_cons (ql : String) (e : KBEntry) (kb : List KBEntry)
    (acc : Option String × Nat) :
    bestAnswerFold ql acc (e :: kb)
      = bestAnswerFold ql
          (if acc.2 < ctxEntryScore e ql then (some e.answer, ctxEntryScore e ql) else acc)
          kb := rfl

theorem bestAnswerFold_snd (ql : String) (kb : List KBEntry) :
    ∀ acc : Option String × Nat,
      (bestAnswerFold ql acc kb).2
        = kb.foldl (fun m e => max m (ctxEntryScore e ql)) acc.2 := by
  induction kb with
  | nil => intro acc; rfl
  | cons e kb ih =>
    intro acc
    rw [bestAnswerFold_cons, List.foldl_cons, ih]
    congr 1
    by_cases hc : acc.2 < ctxEntryScore e ql
    · simp only [hc, if_true]
      exact (Nat.max_eq_right (Nat.le_of_lt hc)).symm
    · simp only [hc, if_false]
      exact (Nat.max_eq_left (Nat.le_of_not_lt hc)).symm

theorem bestAnswerFold_fst (ql : String) (kb : List KBEntry) :
    ∀ acc : Option String × Nat,
      bestAnswerFold ql acc kb = acc
      ∨ ∃ e, e ∈ kb
          ∧ bestAnswerFold ql acc kb = (some e.answer, ctxEntryScore e ql)
          ∧ 0 < ctxEntryScore e ql := by
  induction kb with
  | nil => intro acc; exact Or.inl rfl
  | cons e kb ih =>
    intro acc
    rw [bestAnswerFold_cons]
    by_cases hc : acc.2 < ctxEntryScore e ql
    · simp only [hc, if_true]
      rcases ih (some e.answer, ctxEntryScore e ql) with h | ⟨e', he', h1, h2⟩
      · exact Or.inr ⟨e, List.mem_cons_self e kb, h,
          Nat.lt_of_le_of_lt (Nat.zero_le _) hc⟩
      · exact Or.inr ⟨e', List.mem_cons_of_mem e he', h1, h2⟩
    · simp only [hc, if_false]
      rcases ih acc with h | ⟨e', he', h1, h2⟩
      · exact Or.inl h
      · exact Or.inr ⟨e', List.mem_cons_of_mem e he', h1, h2⟩

/-! ## Claim C4 -/

/-- C4: the escalation router `needs_human(q, conf)` returns True iff some
hard-coded escalation trigger word is a substring of the lowercased query,
or conf is strictly below 0.6; and the same holds for
`AIEngine.needs_escalation` with its own keyword set. -/
theorem c4_escalation_router_iff (q : String) (conf : ℚ) :
    (needs_human q conf = true ↔
      ((∃ k, k ∈ ESCALATION_KEYWORDS ∧ strContains (strLower q) k = true)
        ∨ conf < 0.6))
    ∧ (needs_escalation q conf = true ↔
      ((∃ k, k ∈ AIEngine_ESCALATION_KEYWORDS ∧ strContains (strLower q) k = true)
        ∨ conf < 0.6)) := by
  constructor
  · simp [needs_human, List.any_eq_true]
  · simp [needs_escalation, List.any_eq_true]

/-! ## Claim C3 -/

/-- C3 counterexample: on the concrete knowledge base `kbEx` and query
"get abc", the claimed scoring formula gives entry B (answer "ansB") the
strictly highest score, yet `retrieve_context` from
src/backend/ai_engine.py returns the answer "ansA" of entry A, because it
awards no whole-word bonus. -/
theorem c3_counterexample :
    retrieve_context kbEx "get abc" = some "ansA"
    ∧ claimScore (normalizeKeywords kbEntryB.keywords) (strLower "get abc")
        > claimScore (normalizeKeywords kbEntryA.keywords) (strLower "get abc")
    ∧ kbEntryB.answer = "ansB"
    ∧ ("ansA" : String) ≠ "ansB" := by
  refine ⟨by decide, by decide, rfl, by decide⟩

/-- C3 (amended): the class-based engine `AIEngine.get_response` scores
exactly as the claim states (len(keyword)*2 per substring match plus a
5-point whole-word bonus) and returns an entry of maximal score precisely
when that maximum is positive; the standalone `retrieve_context` awards no
whole-word bonus, scoring only len(keyword)*2 per substring match, and
returns the answer of the best-scoring entry precisely when its maximum score
is positive. -/
theorem c3_scoring_amended (kb : List KBEntry) (q : String) :
    (∀ e : KBEntry,
        entryScore e (strLower q) = claimScore (normalizeKeywords e.keywords) (strLower q))
    ∧ (∀ e, get_response kb q = some e →
        e ∈ kb ∧ entryScore e (strLower q) = maxEntryScore kb (strLower q)
          ∧ 0 < maxEntryScore kb (strLower q))
    ∧ (get_response kb q = none → maxEntryScore kb (strLower q) = 0)
    ∧ (∀ a, retrieve_context kb q = some a →
        ∃ e, e ∈ kb ∧ a = e.answer
          ∧ ctxEntryScore e (strLower q) = maxCtxScore kb (strLower q)
          ∧ 0 < maxCtxScore kb (strLower q))
    ∧ (retrieve_context kb q = none → maxCtxScore kb (strLower q) = 0) := by
  have hge : get_response kb q
      = (if 0 < (bestEntryFold (strLower q) (none, 0) kb).2
         then (bestEntryFold (strLower q) (none, 0) kb).1 else none) := rfl
  have hrc : retrieve_context kb q = (bestAnswerFold (strLower q) (none, 0) kb).1 := rfl
  have hsnd := bestEntryFold_snd (strLower q) kb (none, 0)
  have hfst := bestEntryFold_fst (strLower q) kb (none, 0)
  have hcsnd := bestAnswerFold_snd (strLower q) kb (none, 0)
  have hcfst := bestAnswerFold_fst (strLower q) kb (none, 0)
  refine ⟨fun e => entryScore_eq_claimScore e (strLower q), ?_, ?_, ?_, ?_⟩
  · intro e he
    rw [hge] at he
    rcases hfst with h | ⟨e', he', h1, h2⟩
    · rw [h] at he
      simp at he
    · rw [h1, if_pos h2] at he
      have hee : e' = e := by simpa using he
      subst hee
      have hmax : entryScore e' (strLower q) = maxEntryScore kb (strLower q) := by
        have h0 := hsnd
        rw [h1] at h0
        exact h0
      exact ⟨he', hmax, hmax ▸ h2⟩
  · intro hnone
    rw [hge] at hnone
    rcases hfst with h | ⟨e', he', h1, h2⟩
    · have h0 := hsnd
      rw [h] at h0
      exact h0.symm
    · rw [h1, if_pos h2] at hnone
      simp at hnone
  · intro a ha
    rw [hrc] at ha
    rcases hcfst with h | ⟨e', he', h1, h2⟩
    · rw [h] at ha
      simp at ha
    · rw [h1] at ha
      have haa : a = e'.answer := by simpa using ha.symm
      have hmax : ctxEntryScore e' (strLower q) = maxCtxScore kb (strLower q) := by
        have h0 := hcsnd
        rw [h1] at h0
        exact h0
      exact ⟨e', he', haa, hmax, hmax ▸ h2⟩
  · intro hnone
    rw [hrc] at hnone
    rcases hcfst with h | ⟨e', he', h1, h2⟩
    · have h0 := hcsnd
      rw [h] at h0
      exact h0.symm
    · rw [h1] at hnone
      simp at hnone

/-- Witness for C3 (amended) at the concrete knowledge base `kbEx` and
query "get abc": `get_response` picks entry B and its score realises the
positive maximum. -/
theorem c3_scoring_amended_witness :
    kbEntryB ∈ kbEx
    ∧ entryScore kbEntryB (strLower "get abc") = maxEntryScore kbEx (strLower "get abc")
    ∧ 0 < maxEntryScore kbEx (strLower "get abc") := by
  have h := (c3_scoring_amended kbEx "get abc").2.1 kbEntryB (by decide)
  exact ⟨h.1, h.2.1, h.2.2⟩

/-! ## Sorting and query-execution lemmas -/

theorem mem_insertByCreatedDesc {x t : Ticket} {l : List Ticket} :
    t ∈ insertByCreatedDesc x l ↔ t = x ∨ t ∈ l := by
  induction l with
  | nil => simp [insertByCreatedDesc]
  | cons y ys ih =>
    simp only [insertByCreatedDesc]
    split
    · simp [List.mem_cons]
    · simp only [List.mem_cons, ih]
      tauto

theorem mem_sortByCreatedDesc {t : Ticket} {l : List Ticket} :
    t ∈ sortByCreatedDesc l ↔ t ∈ l := by
  induction l with
  | nil => simp [sortByCreatedDesc]
  | cons y ys ih => simp [sortByCreatedDesc, mem_insertByCreatedDesc, ih]

theorem pairwise_insertByCreatedDesc (x : Ticket) (l : List Ticket)
    (h : l.Pairwise (fun a b => b.created_at ≤ a.created_at)) :
    (insertByCreatedDesc x l).Pairwise (fun a b => b.created_at ≤ a.created_at) := by
  induction l with
  | nil => simp [insertByCreatedDesc]
  | cons y ys ih =>
    rw [List.pairwise_cons] at h
    simp only [insertByCreatedDesc]
    split
    · next hc =>
      rw [List.pairwise_cons]
      refine ⟨?_, List.pairwise_cons.mpr h⟩
      intro b hb
      rcases List.mem_cons.mp hb with rfl | hb
      · exact hc
      · exact Nat.le_trans (h.1 b hb) hc
    · next hc =>
      rw [List.pairwise_cons]
      refine ⟨?_, ih h.2⟩
      intro b hb
      rcases mem_insertByCreatedDesc.mp hb with rfl | hb
      · exact Nat.le_of_not_le hc
      · exact h.1 b hb

theorem sorted_sortByCreatedDesc (l : List Ticket) :
    (sortByCreatedDesc l).Pairwise (fun a b => b.created_at ≤ a.created_at) := by
  induction l with
  | nil => simp [sortByCreatedDesc]
  | cons y ys ih => exact pairwise_insertByCreatedDesc y _ ih

theorem mem_executeTicketQuery {t : Ticket} {table : List Ticket} {pred : Ticket → Bool}
    (h : t ∈ executeTicketQuery table pred) : t ∈ table ∧ pred t = true := by
  unfold executeTicketQuery at h
  have h1 := List.take_subset _ _ h
  have h2 := mem_sortByCreatedDesc.mp h1
  exact ⟨(List.mem_filter.mp h2).1, (List.mem_filter.mp h2).2⟩

theorem length_executeTicketQuery (table : List Ticket) (pred : Ticket → Bool) :
    (executeTicketQuery table pred).length ≤ 1000 := by
  unfold executeTicketQuery
  rw [List.length_take]
  exact Nat.min_le_left _ _

theorem sorted_executeTicketQuery (table : List Ticket) (pred : Ticket → Bool) :
    (executeTicketQuery table pred).Pairwise
      (fun a b => b.created_at ≤ a.created_at) :=
  (sorted_sortByCreatedDesc _).sublist (List.take_sublist _ _)

/-! ## Internal-notes stripping lemmas -/

theorem hideInternalNotes_none (t : Ticket) (hn : t.assignment_notes = none) :
    hideInternalNotes t = t := by
  unfold hideInternalNotes
  rw [hn]

theorem hideInternalNotes_some (t : Ticket) (n : String)
    (hn : t.assignment_notes = some n) :
    hideInternalNotes t
      = (if (!(n == "") && strContains n "INTERNAL:") = true
         then { t with assignment_notes := some "[Internal notes hidden]" }
         else t) := by
  unfold hideInternalNotes
  rw [hn]

theorem hideInternalNotes_fields (t : Ticket) :
    (hideInternalNotes t).id = t.id ∧ (hideInternalNotes t).user_id = t.user_id
    ∧ (hideInternalNotes t).status = t.status
    ∧ (hideInternalNotes t).created_at = t.created_at := by
  cases hn : t.assignment_notes with
  | none => rw [hideInternalNotes_none t hn]; exact ⟨rfl, rfl, rfl, rfl⟩
  | some n =>
    rw [hideInternalNotes_some t n hn]
    by_cases hc : (!(n == "") && strContains n "INTERNAL:") = true
    · rw [if_pos hc]; exact ⟨rfl, rfl, rfl, rfl⟩
    · rw [if_neg hc]; exact ⟨rfl, rfl, rfl, rfl⟩

theorem strContains_empty_internal : strContains "" "INTERNAL:" = false := by decide

theorem hideInternalNotes_clean (t : Ticket) (s : String)
    (h : (hideInternalNotes t).assignment_notes = some s) :
    strContains s "INTERNAL:" = false := by
  cases hn : t.assignment_notes with
  | none =>
    rw [hideInternalNotes_none t hn, hn] at h
    exact absurd h (by simp)
  | some n =>
    rw [hideInternalNotes_some t n hn] at h
    by_cases hC : strContains n "INTERNAL:" = true
    · by_cases hE : n = ""
      · subst hE
        exact absurd hC (by decide)
      · have hcond : (!(n == "") && strContains n "INTERNAL:") = true := by
          simp [hC, hE]
        rw [if_pos hcond] at h
        have hs : s = "[Internal notes hidden]" := (Option.some.inj h).symm
        subst hs
        decide
    · have hCf : strContains n "INTERNAL:" = false := Bool.eq_false_iff.mpr hC
      have hcond : ¬ ((!(n == "") && strContains n "INTERNAL:") = true) := by
        simp [hCf]
      rw [if_neg hcond, hn] at h
      have hs : s = n := (Option.some.inj h).symm
      subst hs
      exact hCf

theorem hideInternalNotes_replaces (t : Ticket) (n : String)
    (hn : t.assignment_notes = some n) (hC : strContains n "INTERNAL:" = true) :
    (hideInternalNotes t).assignment_notes = some "[Internal notes hidden]" := by
  have hne : (n == "") = false := by
    by_cases h0 : n = ""
    · subst h0
      exact absurd hC (by decide)
    · simpa using h0
  rw [hideInternalNotes_some t n hn]
  simp [hne, hC]

theorem hideInternalNotes_eta (t : Ticket) :
    hideInternalNotes t
      = { t with assignment_notes := (hideInternalNotes t).assignment_notes } := by
  cases hn : t.assignment_notes with
  | none => rw [hideInternalNotes_none t hn]
  | some n =>
    rw [hideInternalNotes_some t n hn]
    by_cases hc : (!(n == "") && strContains n "INTERNAL:") = true
    · rw [if_pos hc]
    · rw [if_neg hc]

/-! ## Role-branch computation lemmas for the post-query filter -/

theorem apply_role_client (l : List Ticket) (uid : Nat) :
    apply_role_based_filtering l "client" uid = l.filter (fun t => t.user_id == uid) := by
  simp [apply_role_based_filtering]

theorem apply_role_dev (l : List Ticket) (uid : Nat) :
    apply_role_based_filtering l "developer" uid = l.map hideInternalNotes := by
  simp [apply_role_based_filtering]

theorem apply_role_pm (l : List Ticket) (uid : Nat) :
    apply_role_based_filtering l "project_manager" uid = l.map hideInternalNotes := by
  simp [apply_role_based_filtering]

theorem apply_role_admin (l : List Ticket) (uid : Nat) :
    apply_role_based_filtering l "admin" uid = l := by
  simp [apply_role_based_filtering]

theorem apply_role_len_le (l : List Ticket) (role : String) (uid : Nat) :
    (apply_role_based_filtering l role uid).length ≤ l.length := by
  unfold apply_role_based_filtering
  split_ifs
  · exact List.length_filter_le _ _
  · rw [List.length_map]
  · exact Nat.le_refl _
  · simp

theorem apply_role_pairwise (l : List Ticket) (role : String) (uid : Nat)
    (h : l.Pairwise (fun a b => b.created_at ≤ a.created_at)) :
    (apply_role_based_filtering l role uid).Pairwise
      (fun a b => b.created_at ≤ a.created_at) := by
  unfold apply_role_based_filtering
  split_ifs
  · exact h.filter _
  · refine List.pairwise_map.mpr (h.imp ?_)
    intro a b hab
    rw [(hideInternalNotes_fields a).2.2.2, (hideInternalNotes_fields b).2.2.2]
    exact hab
  · exact h
  · simp

/-! ## Membership lemmas for get_visible_tickets at each role -/

theorem mem_gvt_client {table : List Ticket} {dbFail : Bool} {uid : Nat}
    {filters : Option Filters} {t : Ticket}
    (ht : t ∈ get_visible_tickets table dbFail uid "client" filters) :
    t.user_id = uid := by
  unfold get_visible_tickets at ht
  split_ifs at ht
  · simp at ht
  · simp at ht
  · simp at ht
  · rw [apply_role_client] at ht
    simpa using (List.mem_filter.mp ht).2

theorem mem_gvt_dev {table : List Ticket} {dbFail : Bool} {uid : Nat}
    {filters : Option Filters} {t : Ticket}
    (ht : t ∈ get_visible_tickets table dbFail uid "developer" filters) :
    t.status = "OPEN" ∨ t.status = "IN_PROGRESS" := by
  unfold get_visible_tickets at ht
  split_ifs at ht
  · simp at ht
  · simp at ht
  · simp at ht
  · rw [apply_role_dev] at ht
    rcases List.mem_map.mp ht with ⟨t0, ht0, rfl⟩
    have hbase := ((mem_executeTicketQuery ht0).2)
    have hb : buildBaseQueryPred uid "developer" t0 = true := by
      simp only [Bool.and_eq_true] at hbase
      exact hbase.1
    unfold buildBaseQueryPred at hb
    rw [(hideInternalNotes_fields t0).2.2.1]
    simpa using hb

theorem mem_gvt_pm {table : List Ticket} {dbFail : Bool} {uid : Nat}
    {filters : Option Filters} {t : Ticket}
    (ht : t ∈ get_visible_tickets table dbFail uid "project_manager" filters) :
    t.status = "OPEN" ∨ t.status = "IN_PROGRESS" := by
  unfold get_visible_tickets at ht
  split_ifs at ht
  · simp at ht
  · simp at ht
  · simp at ht
  · rw [apply_role_pm] at ht
    rcases List.mem_map.mp ht with ⟨t0, ht0, rfl⟩
    have hbase := ((mem_executeTicketQuery ht0).2)
    have hb : buildBaseQueryPred uid "project_manager" t0 = true := by
      simp only [Bool.and_eq_true] at hbase
      exact hbase.1
    unfold buildBaseQueryPred at hb
    rw [(hideInternalNotes_fields t0).2.2.1]
    simpa using hb

/-! ## Claim C1 -/

/-- C1: every ticket returned by `get_visible_tickets` respects the
role-based restriction: clients get only their own tickets, developers and
project managers only OPEN/IN_PROGRESS tickets, and for admins no role
restriction is applied beyond the optional user filters. -/
theorem c1_role_restriction (table : List Ticket) (dbFail : Bool) (uid : Nat)
    (role : String) (filters : Option Filters) :
    (∀ t, t ∈ get_visible_tickets table dbFail uid role filters →
        (role = "client" → t.user_id = uid)
        ∧ ((role = "developer" ∨ role = "project_manager") →
            t.status = "OPEN" ∨ t.status = "IN_PROGRESS"))
    ∧ (uid ≠ 0 →
        get_visible_tickets table false uid "admin" filters
          = executeTicketQuery table (optFilterPred filters)) := by
  constructor
  · intro t ht
    constructor
    · intro hr
      subst hr
      exact mem_gvt_client ht
    · intro hr
      rcases hr with rfl | rfl
      · exact mem_gvt_dev ht
      · exact mem_gvt_pm ht
  · intro h0
    unfold get_visible_tickets
    rw [if_neg (by simp [h0]), if_neg (by decide), if_neg (by simp), apply_role_admin]
    have hfil :
        table.filter (fun t => buildBaseQueryPred uid "admin" t && optFilterPred filters t)
          = table.filter (optFilterPred filters) := by
      apply List.filter_congr
      intro t _
      simp [buildBaseQueryPred]
    unfold executeTicketQuery
    rw [hfil]

/-- Witness for C1 on the concrete table: the client view of user 7
contains a ticket owned by user 7, and the developer view contains only
active tickets. -/
theorem c1_role_restriction_witness :
    ticketEx3.user_id = 7
    ∧ ((hideInternalNotes ticketEx2).status = "OPEN"
        ∨ (hideInternalNotes ticketEx2).status = "IN_PROGRESS") := by
  have h1 := ((c1_role_restriction ticketTableEx false 7 "client" none).1
    ticketEx3 (by decide)).1 rfl
  have h2 := ((c1_role_restriction ticketTableEx false 9 "developer" none).1
    (hideInternalNotes ticketEx2) (by decide)).2 (Or.inl rfl)
  exact ⟨h1, h2⟩

/-! ## Claim C2 -/

/-- C2: for developer and project-manager callers the post-query filter
rewrites every assignment-notes value containing the marker INTERNAL: to
"[Internal notes hidden]" (so no returned value contains the marker); for
admins every ticket is returned unchanged; and for every role each
returned ticket differs from a ticket of the input list at most in its
assignment_notes field. -/
theorem c2_internal_notes_hidden (tickets : List Ticket) (uid : Nat) (role : String) :
    ((role = "developer" ∨ role = "project_manager") →
      apply_role_based_filtering tickets role uid = tickets.map hideInternalNotes
      ∧ (∀ t, t ∈ apply_role_based_filtering tickets role uid →
          ∀ s, t.assignment_notes = some s → strContains s "INTERNAL:" = false)
      ∧ (∀ t0 n, t0 ∈ tickets → t0.assignment_notes = some n →
          strContains n "INTERNAL:" = true →
          (hideInternalNotes t0).assignment_notes = some "[Internal notes hidden]"))
    ∧ (role = "admin" → apply_role_based_filtering tickets role uid = tickets)
    ∧ (∀ t, t ∈ apply_role_based_filtering tickets role uid →
        ∃ t0, t0 ∈ tickets ∧ t = { t0 with assignment_notes := t.assignment_notes }) := by
  refine ⟨?_, ?_, ?_⟩
  · intro hr
    have heq : apply_role_based_filtering tickets role uid
        = tickets.map hideInternalNotes := by
      rcases hr with rfl | rfl
      · exact apply_role_dev tickets uid
      · exact apply_role_pm tickets uid
    refine ⟨heq, ?_, ?_⟩
    · intro t ht s hs
      rw [heq] at ht
      rcases List.mem_map.mp ht with ⟨t0, _, rfl⟩
      exact hideInternalNotes_clean t0 s hs
    · intro t0 n _ hn hC
      exact hideInternalNotes_replaces t0 n hn hC
  · intro hr
    subst hr
    exact apply_role_admin tickets uid
  · intro t ht
    unfold apply_role_based_filtering at ht
    split_ifs at ht
    · exact ⟨t, (List.mem_filter.mp ht).1, rfl⟩
    · rcases List.mem_map.mp ht with ⟨t0, ht0, rfl⟩
      exact ⟨t0, ht0, hideInternalNotes_eta t0⟩
    · exact ⟨t, ht, rfl⟩
    · simp at ht

/-- Witness for C2 on the concrete table: the developer branch maps the
stripping function over the rows, and the ticket with internal notes has
them replaced. -/
theorem c2_internal_notes_hidden_witness :
    apply_role_based_filtering ticketTableEx "developer" 3
      = ticketTableEx.map hideInternalNotes
    ∧ (hideInternalNotes ticketEx1).assignment_notes
      = some "[Internal notes hidden]" := by
  have h := c2_internal_notes_hidden ticketTableEx 3 "developer"
  have h1 := h.1 (Or.inl rfl)
  exact ⟨h1.1,
    h1.2.2 ticketEx1 "INTERNAL: escalate quietly" (by decide) rfl (by decide)⟩

/-! ## Claim C9 -/

/-- C9: `get_visible_tickets` returns the empty list (instead of raising)
on falsy input, unknown role, or database failure; and
`check_ticket_access` returns False on falsy input, unknown role, database
failure, or a missing ticket. -/
theorem c9_error_handling (table : List Ticket) (dbFail : Bool)
    (user_id ticket_id : Nat) (user_role action : String) (filters : Option Filters) :
    ((user_id = 0 ∨ user_role = "" ∨ visibilityRoles.contains user_role = false
        ∨ dbFail = true) →
      get_visible_tickets table dbFail user_id user_role filters = [])
    ∧ ((user_id = 0 ∨ ticket_id = 0 ∨ user_role = ""
        ∨ visibilityRoles.contains user_role = false ∨ dbFail = true
        ∨ table.find? (fun t => t.id == ticket_id) = none) →
      check_ticket_access table dbFail user_id ticket_id user_role action = false) := by
  constructor
  · intro h
    unfold get_visible_tickets
    split_ifs with h1 h2 h3
    · rfl
    · rfl
    · rfl
    · exfalso
      rcases h with h | h | h | h
      · exact h1 (by simp [h])
      · exact h1 (by simp [h])
      · exact h2 (by rw [h]; rfl)
      · exact h3 h
  · intro h
    unfold check_ticket_access
    split_ifs with h1 h2 h3
    · rfl
    · rfl
    · rfl
    · have hnone : table.find? (fun t => t.id == ticket_id) = none := by
        rcases h with h | h | h | h | h | h
        · exact absurd (by simp [h]) h1
        · exact absurd (by simp [h]) h1
        · exact absurd (by simp [h]) h1
        · exact absurd (by rw [h]; rfl) h2
        · exact absurd h h3
        · exact h
      rw [hnone]

/-- Witness for C9: an unknown role yields the empty list, and a missing
ticket id yields False. -/
theorem c9_error_handling_witness :
    get_visible_tickets ticketTableEx false 7 "superuser" none = []
    ∧ check_ticket_access ticketTableEx false 7 99 "admin" "view" = false := by
  refine ⟨(c9_error_handling ticketTableEx false 7 99 "superuser" "view" none).1 ?_,
    (c9_error_handling ticketTableEx false 7 99 "admin" "view" none).2 ?_⟩
  · exact Or.inr (Or.inr (Or.inl (by decide)))
  · exact Or.inr (Or.inr (Or.inr (Or.inr (Or.inr (by decide)))))

/-! ## Claim C10 -/

/-- C10: `get_visible_tickets` returns at most 1000 tickets, ordered by
`created_at` descending (newest first). -/
theorem c10_limit_and_order (table : List Ticket) (dbFail : Bool) (uid : Nat)
    (role : String) (filters : Option Filters) :
    (get_visible_tickets table dbFail uid role filters).length ≤ 1000
    ∧ (get_visible_tickets table dbFail uid role filters).Pairwise
        (fun a b => b.created_at ≤ a.created_at) := by
  unfold get_visible_tickets
  split_ifs
  · simp
  · simp
  · simp
  · constructor
    · exact Nat.le_trans (apply_role_len_le _ _ _) (length_executeTicketQuery _ _)
    · exact apply_role_pairwise _ _ _ (sorted_executeTicketQuery _ _)

/-! ## Claim C5 -/

/-- C5: with the database reachable, login succeeds iff the supplied
username and password match a row of the users table verbatim (no
hashing); on success the response carries a token signed with the backend
secret whose payload holds the id and role of the authenticated user; on
failure the endpoint raises HTTP 401. -/
theorem c5_login_plaintext_auth (users : List UserRow) (username password : String)
    (now : Nat) :
    (∀ resp, login users false username password now = Except.ok resp →
        ∃ u, u ∈ users ∧ u.username = username ∧ u.password = password
          ∧ resp.token.payload.id = u.id ∧ resp.token.payload.role = u.role
          ∧ resp.token.key = JWT_SECRET ∧ resp.token.algorithm = JWT_ALGO
          ∧ resp.role = u.role ∧ resp.username = username)
    ∧ ((∃ u, u ∈ users ∧ u.username = username ∧ u.password = password) →
        ∃ resp, login users false username password now = Except.ok resp)
    ∧ ((¬ ∃ u, u ∈ users ∧ u.username = username ∧ u.password = password) →
        login users false username password now = Except.error 401) := by
  have hlog : login users false username password now
      = (match authenticate_user users username password with
         | none => Except.error 401
         | some user =>
           Except.ok ⟨jwtEncode ⟨user.id, user.role, now⟩ JWT_SECRET JWT_ALGO,
             user.role, username⟩) := rfl
  refine ⟨?_, ?_, ?_⟩
  · intro resp h
    rw [hlog] at h
    cases hau : authenticate_user users username password with
    | none =>
      rw [hau] at h
      exact absurd h (by simp)
    | some u =>
      rw [hau] at h
      have hresp : resp
          = ⟨jwtEncode ⟨u.id, u.role, now⟩ JWT_SECRET JWT_ALGO, u.role, username⟩ :=
        (Except.ok.inj h).symm
      subst hresp
      have hu := List.mem_of_find?_eq_some hau
      have hp := List.find?_some hau
      simp only [Bool.and_eq_true, beq_iff_eq] at hp
      exact ⟨u, hu, hp.1, hp.2, rfl, rfl, rfl, rfl, rfl, rfl⟩
  · rintro ⟨u, hu, hn, hp⟩
    cases hau : authenticate_user users username password with
    | none =>
      exfalso
      have := List.find?_eq_none.mp hau u hu
      simp [hn, hp] at this
    | some u' =>
      refine ⟨⟨jwtEncode ⟨u'.id, u'.role, now⟩ JWT_SECRET JWT_ALGO, u'.role, username⟩, ?_⟩
      rw [hlog, hau]
  · intro hne
    cases hau : authenticate_user users username password with
    | some u =>
      exfalso
      have hu := List.mem_of_find?_eq_some hau
      have hp := List.find?_some hau
      simp only [Bool.and_eq_true, beq_iff_eq] at hp
      exact hne ⟨u, hu, hp.1, hp.2⟩
    | none =>
      rw [hlog, hau]

/-- Witness for C5: on the concrete users table a wrong password yields
HTTP 401. -/
theorem c5_login_plaintext_auth_witness :
    login dbEx.users false "alice" "wrong" 0 = Except.error 401 := by
  exact (c5_login_plaintext_auth dbEx.users "alice" "wrong" 0).2.2 (by decide)

/-! ## Assignment-counting lemmas -/

theorem filter_deactivate_eq_nil (l : List AssignmentRow) (tid : Nat) :
    ((l.map (fun a => if a.ticket_id == tid then { a with is_active := false } else a)).filter
      (fun a => a.ticket_id == tid && a.is_active)) = [] := by
  induction l with
  | nil => rfl
  | cons a l ih =>
    simp only [List.map_cons]
    by_cases h : (a.ticket_id == tid) = true
    · rw [if_pos h, List.filter_cons, if_neg (by simp)]
      exact ih
    · rw [if_neg h, List.filter_cons, if_neg (by simp [h])]
      exact ih

theorem filter_deactivate_other (l : List AssignmentRow) (tid o : Nat) (ho : o ≠ tid) :
    ((l.map (fun a => if a.ticket_id == tid then { a with is_active := false } else a)).filter
      (fun a => a.ticket_id == o && a.is_active))
    = l.filter (fun a => a.ticket_id == o && a.is_active) := by
  induction l with
  | nil => rfl
  | cons a l ih =>
    simp only [List.map_cons]
    by_cases h : (a.ticket_id == tid) = true
    · have ha : a.ticket_id = tid := by simpa using h
      have ho' : (a.ticket_id == o) = false := by
        rw [ha]
        exact beq_eq_false_iff_ne.mpr (Ne.symm ho)
      rw [if_pos h, List.filter_cons, List.filter_cons,
        if_neg (by simp [ho']), if_neg (by simp [ho'])]
      exact ih
    · rw [if_neg h, List.filter_cons, List.filter_cons]
      by_cases hao : (a.ticket_id == o && a.is_active) = true
      · rw [if_pos hao, if_pos hao, ih]
      · rw [if_neg hao, if_neg hao]
        exact ih

/-! ## Claim C6 -/

/-- C6: each assignment endpoint leaves its target ticket with exactly one
active assignment (admin and PM assignment first deactivate every existing
assignment of the ticket; developer self-assignment requires that none
exists) and leaves the active-assignment count of every other ticket unchanged;
hence the at-most-one-active-assignment invariant is preserved. -/
theorem c6_single_active_assignment (db db' : BackendDB) (tid dev : Nat)
    (notes : String) (actor now : Nat) :
    (assign_ticket_as_admin db tid dev notes actor now = Except.ok db' →
        activeAssignmentCount db' tid = 1
        ∧ ∀ o, o ≠ tid → activeAssignmentCount db' o = activeAssignmentCount db o)
    ∧ (assign_ticket_as_pm db tid dev notes actor now = Except.ok db' →
        activeAssignmentCount db' tid = 1
        ∧ ∀ o, o ≠ tid → activeAssignmentCount db' o = activeAssignmentCount db o)
    ∧ (self_assign_ticket db tid dev now = Except.ok db' →
        activeAssignmentCount db tid = 0
        ∧ activeAssignmentCount db' tid = 1
        ∧ ∀ o, o ≠ tid → activeAssignmentCount db' o = activeAssignmentCount db o)
    ∧ ((∀ x, activeAssignmentCount db x ≤ 1) →
        (assign_ticket_as_admin db tid dev notes actor now = Except.ok db'
          ∨ assign_ticket_as_pm db tid dev notes actor now = Except.ok db'
          ∨ self_assign_ticket db tid dev now = Except.ok db') →
        ∀ x, activeAssignmentCount db' x ≤ 1) := by
  have hadmin : assign_ticket_as_admin db tid dev notes actor now = Except.ok db' →
      activeAssignmentCount db' tid = 1
      ∧ ∀ o, o ≠ tid → activeAssignmentCount db' o = activeAssignmentCount db o := by
    intro hok
    unfold assign_ticket_as_admin at hok
    by_cases h0 : (dev == 0) = true
    · rw [if_pos h0] at hok
      exact absurd hok (by simp)
    · rw [if_neg h0] at hok
      cases hft : db.tickets.find? (fun t => t.id == tid) with
      | none =>
        rw [hft] at hok
        exact absurd hok (by simp)
      | some t =>
        rw [hft] at hok
        cases hfu : db.users.find? (fun u => u.id == dev && u.role == "developer") with
        | none =>
          rw [hfu] at hok
          exact absurd hok (by simp)
        | some u =>
          rw [hfu] at hok
          obtain rfl := (Except.ok.inj hok).symm
          constructor
          · unfold activeAssignmentCount
            simp only [List.filter_append, filter_deactivate_eq_nil]
            simp
          · intro o ho
            unfold activeAssignmentCount
            simp only [List.filter_append, filter_deactivate_other db.assignments tid o ho]
            have hne : (tid == o) = false := beq_eq_false_iff_ne.mpr (Ne.symm ho)
            simp [List.filter_cons, hne]
  have hpm : assign_ticket_as_pm db tid dev notes actor now = Except.ok db' →
      activeAssignmentCount db' tid = 1
      ∧ ∀ o, o ≠ tid → activeAssignmentCount db' o = activeAssignmentCount db o := by
    intro hok
    have heq : assign_ticket_as_pm db tid dev notes actor now
        = assign_ticket_as_admin db tid dev notes actor now := rfl
    exact hadmin (heq ▸ hok)
  have hself : self_assign_ticket db tid dev now = Except.ok db' →
      activeAssignmentCount db tid = 0
      ∧ activeAssignmentCount db' tid = 1
      ∧ ∀ o, o ≠ tid → activeAssignmentCount db' o = activeAssignmentCount db o := by
    intro hok
    unfold self_assign_ticket at hok
    cases hany : db.tickets.any (fun t =>
        t.id == tid && t.status == "OPEN"
          && !(db.assignments.any (fun a => a.ticket_id == t.id && a.is_active))) with
    | false =>
      rw [if_pos (by simp [hany])] at hok
      exact absurd hok (by simp)
    | true =>
      rw [if_neg (by simp [hany])] at hok
      obtain rfl := (Except.ok.inj hok).symm
      have h0 : activeAssignmentCount db tid = 0 := by
        rcases List.any_eq_true.mp hany with ⟨t, ht, hcond⟩
        simp only [Bool.and_eq_true] at hcond
        have hid : t.id = tid := by simpa using hcond.1.1
        have hinner : db.assignments.any (fun a => a.ticket_id == t.id && a.is_active) = false := by
          rcases hb : db.assignments.any (fun a => a.ticket_id == t.id && a.is_active) with _ | _
          · rfl
          · rw [hb] at hcond
            exact absurd hcond.2 (by simp)
        rw [hid] at hinner
        unfold activeAssignmentCount
        have : db.assignments.filter (fun a => a.ticket_id == tid && a.is_active) = [] := by
          rw [List.filter_eq_nil_iff]
          intro a ha
          have := List.any_eq_false.mp hinner a ha
          simpa using this
        rw [this]
        rfl
      refine ⟨h0, ?_, ?_⟩
      · unfold activeAssignmentCount at h0 ⊢
        simp only [List.filter_append]
        rw [List.length_append, h0]
        simp
      · intro o ho
        unfold activeAssignmentCount
        simp only [List.filter_append]
        have hne : (tid == o) = false := beq_eq_false_iff_ne.mpr (Ne.symm ho)
        simp [List.filter_cons, hne]
  refine ⟨hadmin, hpm, hself, ?_⟩
  intro hinv hok x
  rcases hok with hok | hok | hok
  · rcases hadmin hok with ⟨h1, h2⟩
    by_cases hx : x = tid
    · subst hx; omega
    · rw [h2 x hx]; exact hinv x
  · rcases hpm hok with ⟨h1, h2⟩
    by_cases hx : x = tid
    · subst hx; omega
    · rw [h2 x hx]; exact hinv x
  · rcases hself hok with ⟨h0, h1, h2⟩
    by_cases hx : x = tid
    · subst hx; omega
    · rw [h2 x hx]; exact hinv x

/-- Witness for C6: in the concrete state, the admin assignment of ticket
2 and the developer self-assignment of ticket 2 each leave exactly one
active assignment on ticket 2 and do not change ticket 1. -/
theorem c6_single_active_assignment_witness :
    activeAssignmentCount dbExAfterAdminAssign 2 = 1
    ∧ activeAssignmentCount dbExAfterAdminAssign 1 = activeAssignmentCount dbEx 1
    ∧ activeAssignmentCount dbEx 2 = 0
    ∧ activeAssignmentCount dbExAfterSelfAssign 2 = 1 := by
  have ha := (c6_single_active_assignment dbEx dbExAfterAdminAssign 2 2
    "please fix" 1 13).1 (by rfl)
  have hs := (c6_single_active_assignment dbEx dbExAfterSelfAssign 2 2
    "please fix" 1 14).2.2.1 (by rfl)
  exact ⟨ha.1, ha.2 1 (by decide), hs.1, hs.2.1⟩

/-! ## Ticket-status lemmas -/

theorem find?_update_id (l : List TicketRow) (tid : Nat) (g : TicketRow → TicketRow)
    (hg : ∀ t, (g t).id = t.id) :
    (l.map (fun t => if t.id == tid then g t else t)).find? (fun t => t.id == tid)
      = (l.find? (fun t => t.id == tid)).map g := by
  induction l with
  | nil => rfl
  | cons t l ih =>
    simp only [List.map_cons]
    by_cases h : (t.id == tid) = true
    · rw [if_pos h]
      have hpos : ((g t).id == tid) = true := by rw [hg]; exact h
      have h1 : (g t :: l.map (fun t => if t.id == tid then g t else t)).find?
          (fun t => t.id == tid) = some (g t) :=
        List.find?_cons_of_pos _ hpos
      have h2 : (t :: l).find? (fun t => t.id == tid) = some t :=
        List.find?_cons_of_pos _ h
      rw [h1, h2]
      rfl
    · rw [if_neg h]
      have h1 : (t :: l.map (fun t => if t.id == tid then g t else t)).find?
          (fun t => t.id == tid)
          = (l.map (fun t => if t.id == tid then g t else t)).find?
              (fun t => t.id == tid) :=
        List.find?_cons_of_neg _ h
      have h2 : (t :: l).find? (fun t => t.id == tid)
          = l.find? (fun t => t.id == tid) :=
        List.find?_cons_of_neg _ h
      rw [h1, h2]
      exact ih

theorem ticketStatus_map_update (db : BackendDB) (tid : Nat)
    (g : TicketRow → TicketRow) (hg : ∀ t, (g t).id = t.id) (s : String)
    (hs : ∀ t, (g t).status = s) :
    ((db.tickets.map (fun t => if t.id == tid then g t else t)).find?
        (fun t => t.id == tid)).map (fun t => t.status)
      = (ticketStatus db tid).map (fun _ => s) := by
  rw [find?_update_id db.tickets tid g hg]
  unfold ticketStatus
  cases db.tickets.find? (fun t => t.id == tid) with
  | none => rfl
  | some t => simp [hs]

/-! ## Claim C7 -/

/-- C7 counterexample: in the concrete state, ticket 1 is IN_PROGRESS and
the developer pass endpoint succeeds and moves it back to OPEN, so the
status order OPEN to IN_PROGRESS to CLOSED is violated by a backward
transition. -/
theorem c7_counterexample :
    ticketStatus dbEx 1 = some "IN_PROGRESS"
    ∧ (pass_ticket dbEx 1 2 "too busy" 12 (Except.ok ())).toOption.map
        (fun d => ticketStatus d 1) = some (some "OPEN") := by
  exact ⟨by decide, by decide⟩

/-- C7 (amended): the statuses written by the mutating endpoints are OPEN
for create and pass, IN_PROGRESS for the three assignment operations,
CLOSED for complete and cancel, and the requested IN_PROGRESS/CLOSED value
for a developer status update; in particular the pass endpoint moves a
ticket back to OPEN for reassignment, so the status does not advance
monotonically along OPEN to IN_PROGRESS to CLOSED. -/
theorem c7_status_transitions (db db' : BackendDB) (tid dev : Nat)
    (notes reason status : String) (actor now uid : Nat) (q priority : String)
    (em : Except String Unit) (pr : BackendDB × Nat) :
    (create_client_ticket db uid q priority now = Except.ok pr →
        pr.1.tickets = db.tickets
          ++ [⟨db.nextTicketId, uid, q, none, "OPEN", priority, now, now⟩]
        ∧ pr.2 = db.nextTicketId)
    ∧ (assign_ticket_as_admin db tid dev notes actor now = Except.ok db' →
        ticketStatus db' tid = some "IN_PROGRESS")
    ∧ (assign_ticket_as_pm db tid dev notes actor now = Except.ok db' →
        ticketStatus db' tid = some "IN_PROGRESS")
    ∧ (self_assign_ticket db tid dev now = Except.ok db' →
        ticketStatus db' tid = some "IN_PROGRESS")
    ∧ (complete_ticket db tid dev notes now = Except.ok db' →
        ticketStatus db' tid = (ticketStatus db tid).map (fun _ => "CLOSED"))
    ∧ (cancel_ticket db tid dev reason now em = Except.ok db' →
        ticketStatus db' tid = some "CLOSED")
    ∧ (pass_ticket db tid dev reason now em = Except.ok db' →
        ticketStatus db' tid = (ticketStatus db tid).map (fun _ => "OPEN"))
    ∧ (update_ticket_status db tid dev status notes now = Except.ok db' →
        (status = "IN_PROGRESS" ∨ status = "CLOSED")
        ∧ ticketStatus db' tid = (ticketStatus db tid).map (fun _ => status))
    ∧ (∀ e, pass_ticket db tid dev reason now em = Except.error e →
        (e.1 = 403 ∧ e.2 = db)
        ∨ (e.1 = 500 ∧ ticketStatus e.2 tid = (ticketStatus db tid).map (fun _ => "OPEN")))
    ∧ (∀ e, cancel_ticket db tid dev reason now em = Except.error e →
        (e.1 = 403 ∧ e.2 = db)
        ∨ (e.1 = 500
            ∧ ticketStatus e.2 tid = (ticketStatus db tid).map (fun _ => "CLOSED"))) := by
  refine ⟨?_, ?_, ?_, ?_, ?_, ?_, ?_, ?_, ?_, ?_⟩
  · intro hok
    unfold create_client_ticket at hok
    by_cases hq : (q == "") = true
    · rw [if_pos hq] at hok
      exact absurd hok (by simp)
    · rw [if_neg hq] at hok
      obtain rfl := (Except.ok.inj hok).symm
      exact ⟨rfl, rfl⟩
  · intro hok
    unfold assign_ticket_as_admin at hok
    by_cases h0 : (dev == 0) = true
    · rw [if_pos h0] at hok
      exact absurd hok (by simp)
    · rw [if_neg h0] at hok
      cases hft : db.tickets.find? (fun t => t.id == tid) with
      | none =>
        rw [hft] at hok
        exact absurd hok (by simp)
      | some t0 =>
        rw [hft] at hok
        cases hfu : db.users.find? (fun u => u.id == dev && u.role == "developer") with
        | none =>
          rw [hfu] at hok
          exact absurd hok (by simp)
        | some u0 =>
          rw [hfu] at hok
          obtain rfl := (Except.ok.inj hok).symm
          have hupd := ticketStatus_map_update db tid
            (fun t => { t with status := "IN_PROGRESS" }) (fun t => rfl)
            "IN_PROGRESS" (fun t => rfl)
          have hmap : (ticketStatus db tid).map (fun _ => "IN_PROGRESS")
              = some "IN_PROGRESS" := by
            unfold ticketStatus
            rw [hft]
            rfl
          exact hupd.trans hmap
  · intro hok
    have heq : assign_ticket_as_pm db tid dev notes actor now
        = assign_ticket_as_admin db tid dev notes actor now := rfl
    rw [heq] at hok
    unfold assign_ticket_as_admin at hok
    by_cases h0 : (dev == 0) = true
    · rw [if_pos h0] at hok
      exact absurd hok (by simp)
    · rw [if_neg h0] at hok
      cases hft : db.tickets.find? (fun t => t.id == tid) with
      | none =>
        rw [hft] at hok
        exact absurd hok (by simp)
      | some t0 =>
        rw [hft] at hok
        cases hfu : db.users.find? (fun u => u.id == dev && u.role == "developer") with
        | none =>
          rw [hfu] at hok
          exact absurd hok (by simp)
        | some u0 =>
          rw [hfu] at hok
          obtain rfl := (Except.ok.inj hok).symm
          have hupd := ticketStatus_map_update db tid
            (fun t => { t with status := "IN_PROGRESS" }) (fun t => rfl)
            "IN_PROGRESS" (fun t => rfl)
          have hmap : (ticketStatus db tid).map (fun _ => "IN_PROGRESS")
              = some "IN_PROGRESS" := by
            unfold ticketStatus
            rw [hft]
            rfl
          exact hupd.trans hmap
  · intro hok
    unfold self_assign_ticket at hok
    cases hany : db.tickets.any (fun t =>
        t.id == tid && t.status == "OPEN"
          && !(db.assignments.any (fun a => a.ticket_id == t.id && a.is_active))) with
    | false =>
      rw [if_pos (by simp [hany])] at hok
      exact absurd hok (by simp)
    | true =>
      rw [if_neg (by simp [hany])] at hok
      obtain rfl := (Except.ok.inj hok).symm
      have hupd := ticketStatus_map_update db tid
        (fun t => { t with status := "IN_PROGRESS" }) (fun t => rfl)
        "IN_PROGRESS" (fun t => rfl)
      rcases List.any_eq_true.mp hany with ⟨t, ht, hcond⟩
      simp only [Bool.and_eq_true] at hcond
      cases hfind : db.tickets.find? (fun t => t.id == tid) with
      | none =>
        exfalso
        have := List.find?_eq_none.mp hfind t ht
        exact this hcond.1.1
      | some t0 =>
        have hmap : (ticketStatus db tid).map (fun _ => "IN_PROGRESS")
            = some "IN_PROGRESS" := by
          unfold ticketStatus
          rw [hfind]
          rfl
        exact hupd.trans hmap
  · intro hok
    unfold complete_ticket at hok
    cases hA : db.assignments.any (fun a =>
        a.ticket_id == tid && a.developer_id == dev && a.is_active) with
    | false =>
      rw [if_pos (by simp [hA])] at hok
      exact absurd hok (by simp)
    | true =>
      rw [if_neg (by simp [hA])] at hok
      obtain rfl := (Except.ok.inj hok).symm
      exact ticketStatus_map_update db tid
        (fun t => { t with
          status := "CLOSED", reply := some notes, updated_at := now })
        (fun t => rfl) "CLOSED" (fun t => rfl)
  · intro hok
    unfold cancel_ticket at hok
    split at hok
    · exact absurd hok (by simp)
    · split at hok
      · exact absurd hok (by simp)
      · split at hok
        · exact absurd hok (by simp)
        · exact absurd hok (by simp)
  · intro hok
    unfold pass_ticket at hok
    cases hA : (db.assignments.any (fun a =>
          a.ticket_id == tid && a.developer_id == dev && a.is_active)
        && db.users.any (fun u => u.id == dev)) with
    | false =>
      rw [if_pos (by simp [hA])] at hok
      exact absurd hok (by simp)
    | true =>
      rw [if_neg (by simp [hA])] at hok
      by_cases hE : ((db.users.filter (fun u =>
          (u.role == "admin" || u.role == "project_manager")
            && (match u.email with
                | some e => !(e == "")
                | none => false))).isEmpty) = true
      · rw [if_pos hE] at hok
        obtain rfl := (Except.ok.inj hok).symm
        exact ticketStatus_map_update db tid
          (fun t => { t with status := "OPEN" }) (fun t => rfl)
          "OPEN" (fun t => rfl)
      · rw [if_neg hE] at hok
        exact absurd hok (by simp)
  · intro hok
    unfold update_ticket_status at hok
    cases hA : db.assignments.any (fun a =>
        a.ticket_id == tid && a.developer_id == dev && a.is_active) with
    | false =>
      rw [if_pos (by simp [hA])] at hok
      exact absurd hok (by simp)
    | true =>
      rw [if_neg (by simp [hA])] at hok
      cases hV : (status == "IN_PROGRESS" || status == "CLOSED") with
      | false =>
        rw [if_pos (by simp [hV])] at hok
        exact absurd hok (by simp)
      | true =>
        rw [if_neg (by simp [hV])] at hok
        have hvor : status = "IN_PROGRESS" ∨ status = "CLOSED" := by
          simpa using hV
        refine ⟨hvor, ?_⟩
        by_cases hcl : (status == "CLOSED") = true
        · rw [if_pos hcl] at hok
          by_cases hn : (notes.trim == "") = true
          · rw [if_pos hn] at hok
            exact absurd hok (by simp)
          · rw [if_neg hn] at hok
            obtain rfl := (Except.ok.inj hok).symm
            exact ticketStatus_map_update db tid
              (fun t => { t with
                status := status, reply := some notes, updated_at := now })
              (fun t => rfl) status (fun t => rfl)
        · rw [if_neg hcl] at hok
          obtain rfl := (Except.ok.inj hok).symm
          exact ticketStatus_map_update db tid
            (fun t => { t with status := status, updated_at := now })
            (fun t => rfl) status (fun t => rfl)
  · intro e hok
    unfold pass_ticket at hok
    cases hA : (db.assignments.any (fun a =>
          a.ticket_id == tid && a.developer_id == dev && a.is_active)
        && db.users.any (fun u => u.id == dev)) with
    | false =>
      rw [if_pos (by simp [hA])] at hok
      obtain rfl := Except.error.inj hok
      exact Or.inl ⟨rfl, rfl⟩
    | true =>
      rw [if_neg (by simp [hA])] at hok
      by_cases hE : ((db.users.filter (fun u =>
          (u.role == "admin" || u.role == "project_manager")
            && (match u.email with
                | some e => !(e == "")
                | none => false))).isEmpty) = true
      · rw [if_pos hE] at hok
        exact absurd hok (by simp)
      · rw [if_neg hE] at hok
        obtain rfl := Except.error.inj hok
        exact Or.inr ⟨rfl, ticketStatus_map_update db tid
          (fun t => { t with status := "OPEN" }) (fun t => rfl)
          "OPEN" (fun t => rfl)⟩
  · intro e hok
    unfold cancel_ticket at hok
    split at hok
    · obtain rfl := Except.error.inj hok
      exact Or.inl ⟨rfl, rfl⟩
    · split at hok
      · obtain rfl := Except.error.inj hok
        exact Or.inl ⟨rfl, rfl⟩
      · split at hok
        · obtain rfl := Except.error.inj hok
          exact Or.inr ⟨rfl, ticketStatus_map_update db tid
            (fun tk => { tk with
              status := "CLOSED",
              reply := some ("Ticket canceled by developer: " ++ reason),
              updated_at := now })
            (fun tk => rfl) "CLOSED" (fun tk => rfl)⟩
        · obtain rfl := Except.error.inj hok
          exact Or.inl ⟨rfl, rfl⟩

/-- Witness for C7 (amended): concrete pass and admin-assign runs produce
the stated statuses. -/
theorem c7_status_transitions_witness :
    ticketStatus dbExAfterPass 1 = some "OPEN"
    ∧ ticketStatus dbExAfterAdminAssign 2 = some "IN_PROGRESS" := by
  have hp := (c7_status_transitions dbEx dbExAfterPass 1 2 "n" "too busy" "s"
    1 12 4 "q" "p" (Except.ok ()) (dbEx, 0)).2.2.2.2.2.2.1 (by rfl)
  have ha := (c7_status_transitions dbEx dbExAfterAdminAssign 2 2 "please fix"
    "r" "s" 1 13 4 "q" "p" (Except.ok ()) (dbEx, 0)).2.1 (by rfl)
  exact ⟨hp.trans (by rfl), ha⟩

/-! ## Claim C8 -/

/-- C8 (code bug): the notifier half of the claim holds, `notify_admin`
returning normally for every configuration and HTTP outcome, but the
endpoints do not behave as claimed at the failing input: in `dbEx8` the
cancel of ticket 1 by developer 2 passes its check yet answers HTTP 500
with the CLOSED update already committed and no notification inserted
(the `ticket_info[1]` KeyError of main.py line 1117), and the pass of
ticket 1 answers HTTP 500 after its committed updates because an
admin/PM email exists (the `row[0]` KeyError of main.py line 1063), so
neither endpoint returns the claimed success response on the paths where
the email send would occur. -/
theorem c8_notification_crash :
    (∀ (cfg : TelegramConfig) (msg : String) (http : HttpOutcome),
        notify_admin cfg msg http = Except.ok ())
    ∧ cancel_ticket dbEx8 1 2 "looks spam" 12 (Except.ok ())
        = Except.error (500, dbEx8AfterCancelCrash)
    ∧ ticketStatus dbEx8AfterCancelCrash 1 = some "CLOSED"
    ∧ dbEx8AfterCancelCrash.notifications = []
    ∧ pass_ticket dbEx8 1 2 "too busy" 12 (Except.ok ())
        = Except.error (500, dbEx8AfterPassCrash)
    ∧ ticketStatus dbEx8AfterPassCrash 1 = some "OPEN" := by
  refine ⟨?_, rfl, by decide, rfl, rfl, by decide⟩
  intro cfg msg http
  unfold notify_admin
  split_ifs
  · rfl
  · cases http <;> rfl

end AgenticAI
